import Mathlib

/-
Verification of the deterministic sequence generator described by the
specification of the 2017-summer-workshop reproducibility notebook.

The repository's only executable code is a notebook cell sequence:
`random.seed(19145822646)`, `r = [random.random() for _ in range(10)]`,
re-seeding with the same value, drawing ten values again, and checking
`r == r2`.  The pseudo-random generator implementation itself is library
code and is not part of the repository sources; following the
specification, it is modelled here as a stateful component with
operations `initialize(seed)`, `next()` and `draw(n)`, embedded as pure
state-passing functions over a concrete state type, with output values
in ℚ (the properties at stake — determinism, length, range, sequencing,
error behaviour — do not depend on floating-point representation).
-/

namespace RNG

/-- Modelled from the spec: "Generator State: internal state derived
deterministically from the seed. ... Mutates with each value produced
(standard stateful pseudo-random generation: each draw advances internal
state and is a pure function of prior state)."  The generator
implementation is not in the repository sources; a concrete 32-bit
congruential state is used. -/
structure Generator where
  state : Nat
  deriving Repr, DecidableEq

/-- The size of the state space of the modelled generator. -/
def modulus : Nat := 2 ^ 32

/-- Multiplier of the modelled congruential step. -/
def multA : Nat := 1664525

/-- Increment of the modelled congruential step. -/
def incC : Nat := 1013904223

/-- Modelled from the spec: "Contract — initialize(seed): accepts an
integer seed.  No constraints on range beyond what the underlying
numeric type supports.  Side effect: establishes internal state
deterministically as a pure function of the seed.  No error conditions
for any valid integer."  The generator implementation is not in the
repository sources. -/
def initGen (seed : Int) : Generator :=
  ⟨seed.natAbs % modulus⟩

/-- Modelled from the spec: "Contract — next() → float: returns the next
value in [0,1), advances internal state.  Side effect: internal state
mutation.  No failure modes."  Pure state passing: returns the drawn
value together with the advanced generator.  The generator
implementation is not in the repository sources. -/
def nextVal (g : Generator) : ℚ × Generator :=
  let s := (multA * g.state + incC) % modulus
  ((s : ℚ) / (modulus : ℚ), ⟨s⟩)

/-- The notebook's draw of `n` values,
`r = [random.random() for _ in range(n)]`: the comprehension calls the
generator once per position, threading the internal state; returns the
collected list together with the final generator state. -/
def drawList : Generator → Nat → List ℚ × Generator
  | g, 0 => ([], g)
  | g, n + 1 =>
      let p := nextVal g
      let q := drawList p.2 n
      (p.1 :: q.1, q.2)

/-- Modelled from the spec: "Contract — draw(n) → sequence of float:
convenience operation equivalent to calling next() n times and
collecting results in order.  Fails (caller error) only if n is
negative; n = 0 yields an empty sequence."  The error is reported to the
caller through `Except`.  The generator implementation is not in the
repository sources. -/
def draw (g : Generator) (n : Int) : Except String (List ℚ × Generator) :=
  if n < 0 then Except.error "draw: negative count"
  else Except.ok (drawList g n.toNat)

/-- Whether a `draw` outcome is an error reported to the caller. -/
def isErr : Except String (List ℚ × Generator) → Bool
  | Except.error _ => true
  | Except.ok _ => false

/-- Re-seeding an existing, possibly already used, generator, as the
notebook's second `random.seed(19145822646)` does to the global
generator.  Modelled from the spec: initialization "establishes internal
state deterministically as a pure function of the seed", so the previous
state is discarded. -/
def reinitGen (_g : Generator) (seed : Int) : Generator :=
  initGen seed

/-- The generator advanced by `n` calls of `next()`, discarding the
drawn values. -/
def iterNext (g : Generator) : Nat → Generator
  | 0 => g
  | n + 1 => (nextVal (iterNext g n)).2

/-- The spec's wording of `draw(n)` taken literally, as a second
definition for the refinement claim: "calling next() n times and
collecting results in order" — the value at position `i` is the one
produced by the `(i+1)`-st call of `next()`. -/
def drawSpecWording (g : Generator) (n : Nat) : List ℚ :=
  (List.range n).map (fun i => (nextVal (iterNext g i)).1)

/-- An operation the caller can perform against the generator while
holding a seed variable: re-initialize from the held seed, draw a single
value, or draw a batch of `n` values. -/
inductive Op where
  | initOp : Op
  | nextOp : Op
  | drawOp : Nat → Op

/-- A caller session: the seed integer held by the caller, together with
the generator instance.  Modelled from the spec: "Seed: an integer value
supplied by the caller.  Owned by the caller; not mutated by the
generator." -/
structure Session where
  callerSeed : Int
  gen : Generator

/-- The generator state reached by one caller operation. -/
def opGen (s : Session) : Op → Generator
  | Op.initOp => initGen s.callerSeed
  | Op.nextOp => (nextVal s.gen).2
  | Op.drawOp n => (drawList s.gen n).2

/-- One step of a caller session: only the generator component mutates. -/
def applyOp (s : Session) (op : Op) : Session :=
  ⟨s.callerSeed, opGen s op⟩

/-- Running a list of operations in order over a caller session. -/
def runOps (s : Session) : List Op → Session
  | [] => s
  | op :: rest => runOps (applyOp s op) rest

lemma drawList_zero_fst (g : Generator) : (drawList g 0).1 = [] := rfl

lemma drawList_zero_snd (g : Generator) : (drawList g 0).2 = g := rfl

lemma drawList_succ (g : Generator) (n : Nat) :
    drawList g (n + 1) =
      ((nextVal g).1 :: (drawList (nextVal g).2 n).1,
        (drawList (nextVal g).2 n).2) := rfl

lemma drawList_succ_fst (g : Generator) (n : Nat) :
    (drawList g (n + 1)).1 =
      (nextVal g).1 :: (drawList (nextVal g).2 n).1 := by
  rw [drawList_succ]

lemma drawList_succ_snd (g : Generator) (n : Nat) :
    (drawList g (n + 1)).2 = (drawList (nextVal g).2 n).2 := by
  rw [drawList_succ]

lemma iterNext_zero (g : Generator) : iterNext g 0 = g := rfl

lemma iterNext_succ (g : Generator) (n : Nat) :
    iterNext g (n + 1) = (nextVal (iterNext g n)).2 := rfl

lemma modulus_pos : 0 < modulus := by
  unfold modulus; norm_num

lemma nextVal_fst_nonneg (g : Generator) : 0 ≤ (nextVal g).1 := by
  show 0 ≤ (((multA * g.state + incC) % modulus : Nat) : ℚ) / (modulus : ℚ)
  exact div_nonneg (Nat.cast_nonneg _) (Nat.cast_nonneg _)

lemma nextVal_fst_lt_one (g : Generator) : (nextVal g).1 < 1 := by
  show (((multA * g.state + incC) % modulus : Nat) : ℚ) / (modulus : ℚ) < 1
  rw [div_lt_one (by exact_mod_cast modulus_pos)]
  exact_mod_cast Nat.mod_lt _ modulus_pos

lemma drawList_length (n : Nat) :
    ∀ g : Generator, ((drawList g n).1).length = n := by
  induction n with
  | zero => intro g; simp [drawList_zero_fst]
  | succ k ih =>
      intro g
      rw [drawList_succ_fst, List.length_cons, ih (nextVal g).2]

lemma drawList_mem_range (n : Nat) :
    ∀ g : Generator, ∀ x ∈ (drawList g n).1, 0 ≤ x ∧ x < 1 := by
  induction n with
  | zero =>
      intro g x hx
      rw [drawList_zero_fst] at hx
      cases hx
  | succ k ih =>
      intro g x hx
      rw [drawList_succ_fst] at hx
      rcases List.mem_cons.mp hx with h | h
      · subst h
        exact ⟨nextVal_fst_nonneg g, nextVal_fst_lt_one g⟩
      · exact ih _ x h

lemma iterNext_shift (g : Generator) (i : Nat) :
    iterNext (nextVal g).2 i = iterNext g (i + 1) := by
  induction i with
  | zero => rw [iterNext_zero, iterNext_succ, iterNext_zero]
  | succ k ih =>
      rw [iterNext_succ (nextVal g).2 k, ih, iterNext_succ g (k + 1)]

lemma drawSpecWording_succ (g : Generator) (n : Nat) :
    drawSpecWording g (n + 1) =
      (nextVal g).1 :: drawSpecWording (nextVal g).2 n := by
  unfold drawSpecWording
  simp only [List.range_succ_eq_map, List.map_cons, List.map_map,
    iterNext_zero]
  refine congrArg (List.cons (nextVal g).1) ?_
  apply List.map_congr_left
  intro i _
  simp only [Function.comp_apply, Nat.succ_eq_add_one, iterNext_shift]

lemma drawList_eq_wording (n : Nat) :
    ∀ g : Generator, (drawList g n).1 = drawSpecWording g n := by
  induction n with
  | zero =>
      intro g
      simp [drawList_zero_fst, drawSpecWording]
  | succ k ih =>
      intro g
      rw [drawList_succ_fst, drawSpecWording_succ, ih (nextVal g).2]

lemma drawList_snd_eq_iterNext (n : Nat) :
    ∀ g : Generator, (drawList g n).2 = iterNext g n := by
  induction n with
  | zero => intro g; rw [drawList_zero_snd, iterNext_zero]
  | succ k ih =>
      intro g
      rw [drawList_succ_snd, ih (nextVal g).2, iterNext_shift]

lemma applyOp_callerSeed (s : Session) (op : Op) :
    (applyOp s op).callerSeed = s.callerSeed := rfl

lemma runOps_cons (s : Session) (op : Op) (rest : List Op) :
    runOps s (op :: rest) = runOps (applyOp s op) rest := rfl

/-- C1: for every integer seed `s` and count `n`, two independent
generator instances both initialized with `s`, each drawing `n` values,
produce identical sequences, element for element: the draw is a
deterministic function of the seed and the count. -/
theorem two_instances_same_seed_same_sequence (s : Int) (n : Nat)
    (g1 g2 : Generator) (h1 : g1 = initGen s) (h2 : g2 = initGen s) :
    (drawList g1 n).1 = (drawList g2 n).1 := by
  subst h1; subst h2; rfl

/-- Witness for C1 at seed 7 and count 3. -/
theorem two_instances_same_seed_same_sequence_witness :
    (drawList (initGen 7) 3).1 = (drawList (initGen 7) 3).1 :=
  two_instances_same_seed_same_sequence 7 3 (initGen 7) (initGen 7) rfl rfl

/-- C2: initializing with seed 19145822646, drawing 10 values, then
re-initializing the same generator with the same seed 19145822646 and
drawing 10 values again yields exactly the same 10-element sequence. -/
theorem concrete_seed_19145822646_reproduces :
    (drawList (initGen 19145822646) 10).1 =
      (drawList
        (reinitGen (drawList (initGen 19145822646) 10).2 19145822646)
        10).1 ∧
    ((drawList (initGen 19145822646) 10).1).length = 10 :=
  ⟨rfl, drawList_length 10 (initGen 19145822646)⟩

/-- C3: for every integer seed `s` and natural `n`, drawing `n` values
after initializing with `s` yields a sequence of exactly `n` values,
each at least 0 and strictly below 1. -/
theorem draw_length_and_range (s : Int) (n : Nat) :
    ((drawList (initGen s) n).1).length = n ∧
      ∀ x ∈ (drawList (initGen s) n).1, 0 ≤ x ∧ x < 1 :=
  ⟨drawList_length n (initGen s), drawList_mem_range n (initGen s)⟩

/-- Witness for C3 at seed 0 and count 1: the single drawn value is
1013904223/4294967296, which lies in [0, 1). -/
theorem draw_length_and_range_witness :
    ((drawList (initGen 0) 1).1).length = 1 ∧
      (0 ≤ (nextVal (initGen 0)).1 ∧ (nextVal (initGen 0)).1 < 1) :=
  ⟨(draw_length_and_range 0 1).1,
    (draw_length_and_range 0 1).2 (nextVal (initGen 0)).1
      (List.mem_singleton.mpr rfl)⟩

/-- C4: `draw(n)` reports an error back to the caller exactly when `n`
is negative; for non-negative `n` it succeeds (so in particular
`draw(-1)` is rejected rather than returning an empty or truncated
sequence, and no other operation of the generator fails). -/
theorem draw_errors_iff_negative (g : Generator) (n : Int) :
    isErr (draw g n) = true ↔ n < 0 := by
  unfold draw
  by_cases h : n < 0
  · simp [h, isErr]
  · simp [h, isErr]

/-- C5: for every integer seed, drawing zero values after initializing
yields the empty sequence. -/
theorem draw_zero_empty (s : Int) :
    (drawList (initGen s) 0).1 = ([] : List ℚ) := rfl

/-- C6: for every generator state and count `n`, the batch draw returns
exactly the sequence obtained by calling `next()` `n` times and
collecting the results in call order, and leaves the generator in the
state reached by those `n` calls. -/
theorem draw_equals_iterated_next (g : Generator) (n : Nat) :
    (drawList g n).1 = drawSpecWording g n ∧
      (drawList g n).2 = iterNext g n :=
  ⟨drawList_eq_wording n g, drawList_snd_eq_iterNext n g⟩

/-- C7: the seed integer held by the caller is never mutated by the
generator: after any sequence of initialize / next / draw operations,
the caller's seed is unchanged; only the generator component of the
session mutates. -/
theorem caller_seed_never_mutated (ops : List Op) :
    ∀ s : Session, (runOps s ops).callerSeed = s.callerSeed := by
  induction ops with
  | nil => intro s; rfl
  | cons op rest ih =>
      intro s
      rw [runOps_cons, ih (applyOp s op), applyOp_callerSeed]

/-- C9: re-initializing a generator with seed `s` erases all history:
whatever the generator's current state, after re-initialization it draws
exactly the same sequence as a fresh generator initialized with `s`.  In
particular this holds for a generator that has already produced `k`
values from any starting seed. -/
theorem reinit_erases_history (g : Generator) (s : Int) (n : Nat) :
    drawList (reinitGen g s) n = drawList (initGen s) n := rfl

/-- C10: consecutive draws continue one sequence: drawing `a` values and
then `b` more values from the resulting state yields, in concatenation,
exactly the sequence of a single draw of `a + b` values. -/
theorem draw_additive (a b : Nat) :
    ∀ g : Generator,
      (drawList g (a + b)).1 =
        (drawList g a).1 ++ (drawList (drawList g a).2 b).1 := by
  induction a with
  | zero =>
      intro g
      rw [Nat.zero_add]
      simp [drawList_zero_fst, drawList_zero_snd]
  | succ k ih =>
      intro g
      have hadd : k + 1 + b = (k + b) + 1 := by omega
      rw [hadd]
      simp only [drawList_succ_fst, drawList_succ_snd, List.cons_append]
      rw [ih (nextVal g).2]

end RNG
